import Mathlib

/-!
Shallow embedding of the gmysql MySQL client driver (packet framing,
command protocol, interpolation, DSN parsing and value decoding), together
with theorems checking the natural-language specification against it.

Bytes are modelled as `Nat` values below 256; byte streams as `List Nat`.
The network connection is modelled as an explicit state record: the bytes
still readable from the transport (`input`), the bytes written so far
(`output`), and the driver-visible fields of the Go `Conn` struct.
-/

namespace Gmysql

/-! ## Protocol constants

`const.go` of the repository is not among the sources; the constants used
by the sources are modelled from the spec. -/

/-- Modelled from the spec: `const.go` is absent from the sources. The spec
fixes the packet split size at 2^24 - 1 bytes ("handles packet splitting at
16 MiB − 1", frames of "at most 2²⁴−1 bytes"). -/
def maxPacketSize : Nat := 16777215

/-- Modelled from the spec: COM_QUIT command code (spec section 4.4: 0x01). -/
def comQuit : Nat := 0x01

/-- Modelled from the spec: COM_QUERY command code (spec section 4.4: 0x03). -/
def comQuery : Nat := 0x03

/-- Modelled from the spec: OK packet indicator byte (spec glossary: 0x00). -/
def iOK : Nat := 0x00

/-- Modelled from the spec: Local-Infile request indicator (spec section 4.4: 0xFB). -/
def iLocalInFile : Nat := 0xfb

/-- Modelled from the spec: EOF packet indicator byte (spec glossary: 0xFE). -/
def iEOF : Nat := 0xfe

/-- Modelled from the spec: ERR packet indicator byte (spec glossary: 0xFF). -/
def iERR : Nat := 0xff

/-- Modelled from the spec: the server status bit NO_BACKSLASH_ESCAPES
selecting the escape routine (spec section 4.2); protocol value 512. -/
def statusNoBackslashEscapes : Nat := 512

/-- Modelled from the spec: the UNSIGNED column flag (spec section 3,
"flags (unsigned, etc.)"); protocol value 32. -/
def flagUnsigned : Nat := 32

/-! Field type codes, modelled from the spec (section 4.6 enumerates the
types; the numeric codes are the MySQL protocol values). -/

def fieldTypeDecimal : Nat := 0
def fieldTypeTiny : Nat := 1
def fieldTypeShort : Nat := 2
def fieldTypeLong : Nat := 3
def fieldTypeFloat : Nat := 4
def fieldTypeDouble : Nat := 5
def fieldTypeNULL : Nat := 6
def fieldTypeTimestamp : Nat := 7
def fieldTypeLongLong : Nat := 8
def fieldTypeInt24 : Nat := 9
def fieldTypeDate : Nat := 10
def fieldTypeTime : Nat := 11
def fieldTypeDateTime : Nat := 12
def fieldTypeYear : Nat := 13
def fieldTypeNewDate : Nat := 14
def fieldTypeVarChar : Nat := 15
def fieldTypeBit : Nat := 16
def fieldTypeNewDecimal : Nat := 246
def fieldTypeEnum : Nat := 247
def fieldTypeSet : Nat := 248
def fieldTypeTinyBLOB : Nat := 249
def fieldTypeMediumBLOB : Nat := 250
def fieldTypeLongBLOB : Nat := 251
def fieldTypeBLOB : Nat := 252
def fieldTypeVarString : Nat := 253
def fieldTypeString : Nat := 254
def fieldTypeGeometry : Nat := 255

/-! ## Errors (errors.go) -/

/-- A single MySQL warning (errors.go `Warning`). -/
structure Warning where
  level : String
  code : String
  message : String
deriving Repr, DecidableEq

/-- The error values the driver can produce. Mirrors the error variables of
errors.go plus: `server` for `*Error` (a server ERR packet), `warnings` for
the `Warnings` collective error type, `errorString` for ad hoc
`errors.New` or `fmt.Errorf` errors, `ioEOF` for `io.EOF` and other
transport read failures, and `panicked` for a Go runtime panic (for
example an out-of-range index). -/
inductive GoError where
  | invalidConn
  | malformPkt
  | noTLS
  | oldPassword
  | cleartextPassword
  | unknownPlugin
  | oldProtocol
  | pktSync
  | pktSyncMul
  | pktTooLarge
  | busyBuffer
  | unsafeInterpolate
  | interpolateFailed
  | noRows
  | ioEOF
  | server (number : Nat) (message : List Nat)
  | warnings (ws : List Warning)
  | errorString (s : String)
  | panicked (s : String)
deriving Repr, DecidableEq

/-- Marker returned by the fuel-based loop embeddings when their fuel runs
out; the wrappers below always supply enough fuel, so no reachable
execution produces it. -/
def fuelError : GoError := GoError.errorString "model: fuel exhausted"

/-! ## Byte helpers -/

/-- Bytes of an ASCII string. -/
def strBytes (s : String) : List Nat := s.toList.map Char.toNat

/-- Decode a byte list as an ASCII string (inverse of `strBytes` on ASCII). -/
def bytesToString (bs : List Nat) : String := String.mk (bs.map Char.ofNat)

/-- Little-endian interpretation of a byte list. -/
def leUint : List Nat → Nat
  | [] => 0
  | b :: rest => b + 256 * leUint rest

/-- Reinterpret the low `bits` bits of an unsigned value as a two's
complement signed integer (Go conversions such as `int64(u)`). -/
def intOfUint (bits : Nat) (u : Nat) : Int :=
  if u < 2 ^ (bits - 1) then (u : Int) else (u : Int) - 2 ^ bits

/-- Modelled from the spec: `utils.go` is absent from the sources. The
LONGLONG decoder surfaces large unsigned values "as stringified unsigned"
(spec section 4.6): decimal ASCII bytes. -/
def uint64ToString (n : Nat) : List Nat := strBytes (toString n)

/-! ## Length-encoded integers and strings

Modelled from the spec (section 4.2): `utils.go` is absent from the
sources. "Length-encoded integer: 1 byte if < 0xFB; 0xFC + u16 LE; 0xFD +
u24 LE; 0xFE + u64 LE. 0xFB means NULL for length-encoded strings.
Length-encoded string is length-encoded integer followed by that many raw
bytes." -/

/-- Modelled from the spec (section 4.2). Returns (value, isNull,
bytesConsumed). Callers always pass a nonempty slice; the empty case is
modelled as a NULL that consumes nothing. -/
def readLengthEncodedInteger (b : List Nat) : Nat × Bool × Nat :=
  match b with
  | [] => (0, true, 0)
  | b0 :: rest =>
    if b0 = 0xfb then (0, true, 1)
    else if b0 = 0xfc then (leUint (rest.take 2), false, 3)
    else if b0 = 0xfd then (leUint (rest.take 3), false, 4)
    else if b0 = 0xfe then (leUint (rest.take 8), false, 9)
    else (b0, false, 1)

/-- Modelled from the spec (section 4.2). Returns (bytes, isNull,
bytesConsumed, error); a declared length running past the buffer is a
transport read failure. -/
def readLengthEncodedString (b : List Nat) :
    List Nat × Bool × Nat × Option GoError :=
  let r := readLengthEncodedInteger b
  let num := r.1
  let isNull := r.2.1
  let n := r.2.2
  if num < 1 then ([], isNull, n, none)
  else if n + num ≤ b.length then ((b.drop n).take num, false, n + num, none)
  else ([], false, n + num, some GoError.ioEOF)

/-- Modelled from the spec (section 4.2): skip over one length-encoded
string, returning (bytesConsumed, error). -/
def skipLengthEncodedString (b : List Nat) : Nat × Option GoError :=
  let r := readLengthEncodedInteger b
  let num := r.1
  let n := r.2.2
  if num < 1 then (n, none)
  else if n + num ≤ b.length then (n + num, none)
  else (n + num, some GoError.ioEOF)

/-! ## Configuration (dsn.go `Config`)

`time.Location`, `*tls.Config` and `time.Duration` are collaborator types;
they are modelled respectively as the location name, a flag recording that
a TLS config was selected, and nanoseconds. -/

structure Config where
  user : String := ""
  passwd : String := ""
  net : String := ""
  addr : String := ""
  dbName : String := ""
  params : List (String × String) := []
  loc : String := "UTC"
  tls : Bool := false
  timeout : Nat := 0
  collation : Nat := 33
  allowAllFiles : Bool := false
  allowCleartextPasswords : Bool := false
  allowOldPasswords : Bool := false
  clientFoundRows : Bool := false
  columnsWithAlias : Bool := false
  strict : Bool := false
deriving Repr, DecidableEq

/-! ## Connection state (connection.go `Conn`)

`netConn` is modelled by `connOpen` (whether the transport is attached)
together with the `input`/`output` byte streams. The reusable read/write
buffer is modelled by `bufFree`: the take-buffer primitives succeed if and
only if it is true (spec section 5 shared resource policy). -/

structure Conn where
  input : List Nat := []
  output : List Nat := []
  connOpen : Bool := true
  bufFree : Bool := true
  sequence : Nat := 0
  maxPacketAllowed : Nat := maxPacketSize
  status : Nat := 0
  affectedRows : Nat := 0
  insertID : Nat := 0
  strict : Bool := false
  cfg : Option Config := some {}
deriving Repr, DecidableEq

/-! ## Packet framing (packets source file: readPacket / writePacket) -/

/-- One emission loop of `writePacket` (the `for` loop of the source):
emits frames of at most `maxPacketSize` payload bytes, filling the 3-byte
little-endian length and the sequence byte into each header. Returns the
emitted bytes and the sequence counter after the loop. A payload of exactly
`maxPacketSize` bytes is followed by one zero-length frame, as in the
source (the loop continues whenever the frame size equals
`maxPacketSize`). The recursion is made structural on a fuel argument;
each round drops `maxPacketSize` payload bytes, so the fuel supplied by
`writeFrames` is never exhausted. -/
def writeFramesF : Nat → Nat → List Nat → List Nat × Nat
  | 0, seq, _ => ([], seq)
  | fuel + 1, seq, p =>
    if maxPacketSize ≤ p.length then
      let frame := 0xff :: 0xff :: 0xff :: seq % 256 :: p.take maxPacketSize
      let r := writeFramesF fuel ((seq + 1) % 256) (p.drop maxPacketSize)
      (frame ++ r.1, r.2)
    else
      (p.length % 256 :: p.length / 256 % 256 :: p.length / 65536 % 256 ::
        seq % 256 :: p, (seq + 1) % 256)

def writeFrames (seq : Nat) (p : List Nat) : List Nat × Nat :=
  writeFramesF (p.length + 1) seq p

/-- `writePacket` of the packets source file, on the payload proper (the Go
code receives the payload preceded by 4 bytes of header slack;
`pktLen = len(data) - 4` is `p.length` here). If the total payload exceeds
the negotiated maximum, fails before writing anything. -/
def writePacket (c : Conn) (p : List Nat) : Option GoError × Conn :=
  if c.maxPacketAllowed < p.length then (some GoError.pktTooLarge, c)
  else
    let r := writeFrames c.sequence p
    (none, { c with output := c.output ++ r.1, sequence := r.2 })

/-- `cleanup` of connection.go: drops the transport and unsets internal
state. -/
def cleanup (c : Conn) : Conn :=
  { c with connOpen := false, cfg := none }

/-- `writeCommandPacket` of the packets source file: resets the sequence
counter and sends a one-byte command payload. -/
def writeCommandPacket (c : Conn) (command : Nat) : Option GoError × Conn :=
  let c := { c with sequence := 0 }
  if c.bufFree then writePacket c [command]
  else (some GoError.busyBuffer, c)

/-- `Close` of connection.go: best-effort COM_QUIT when the transport is
still attached, then cleanup. -/
def Close (c : Conn) : Option GoError × Conn :=
  if c.connOpen then
    let r := writeCommandPacket c comQuit
    (r.1, cleanup r.2)
  else (none, cleanup c)

/-- `writeCommandPacketStr` of the packets source file: resets the sequence
counter and sends a command byte followed by the argument bytes. -/
def writeCommandPacketStr (c : Conn) (command : Nat) (arg : List Nat) :
    Option GoError × Conn :=
  let c := { c with sequence := 0 }
  if c.bufFree then writePacket c (command :: arg)
  else (some GoError.busyBuffer, c)

/-- The frame reading loop of `readPacket`. `conn.buf.readNext n` is
modelled as taking `n` bytes from `c.input`, failing (transport error) when
fewer are available. Each iteration reads a 4-byte header; a declared
length below 1 is malformed, a sequence byte differing from the expected
value is a sync error (distinguishing received-above from received-below),
otherwise the sequence counter is incremented and the declared number of
payload bytes is read; frames of exactly `maxPacketSize` bytes are
continued. Transport failures and malformed lengths close the connection
(which sends a best-effort COM_QUIT, as `Close` does). -/
def readPacketAux : Nat → Conn → List Nat → Except GoError (List Nat) × Conn
  | 0, c, _ => (Except.error GoError.ioEOF, c)
  | fuel + 1, c, payload =>
    if c.input.length < 4 then
      (Except.error GoError.ioEOF, (Close c).2)
    else
      let b0 := c.input.getD 0 0
      let b1 := c.input.getD 1 0
      let b2 := c.input.getD 2 0
      let sq := c.input.getD 3 0
      let pktLen := b0 + 256 * b1 + 65536 * b2
      if pktLen < 1 then
        (Except.error GoError.malformPkt, (Close { c with input := c.input.drop 4 }).2)
      else if sq ≠ c.sequence then
        if c.sequence < sq then
          (Except.error GoError.pktSyncMul, { c with input := c.input.drop 4 })
        else
          (Except.error GoError.pktSync, { c with input := c.input.drop 4 })
      else
        let c1 : Conn :=
          { c with input := c.input.drop 4, sequence := (c.sequence + 1) % 256 }
        if c1.input.length < pktLen then
          (Except.error GoError.ioEOF, (Close c1).2)
        else
          let body := c1.input.take pktLen
          let c2 : Conn := { c1 with input := c1.input.drop pktLen }
          if pktLen < maxPacketSize then
            (Except.ok (payload ++ body), c2)
          else
            readPacketAux fuel c2 (payload ++ body)

/-- `readPacket` of the packets source file. The loop is structural on a
fuel argument; every continuation round consumes at least
`4 + maxPacketSize` input bytes, so the fuel supplied here is never
exhausted. -/
def readPacket (c : Conn) : Except GoError (List Nat) × Conn :=
  readPacketAux (c.input.length + 1) c []

/-! ## Argument values

The Go driver passes arguments as `interface{}`. The embedded value domain
covers the cases the sources inspect: the untyped nil interface (`null`),
`int64`, `bool`, `[]byte` (a nil byte slice is represented by `null`, which
the sources treat the same way), `string`, floats (carried as raw IEEE-754
bits: their numeric semantics is outside this embedding) and
`[]interface{}` (`arr`, needed because getWarnings passes its value slice
as a single argument). `float64` and `time.Time` arguments are outside the
embedded domain; no claim mentions them. -/

inductive Val where
  | null
  | int (v : Int)
  | bool (b : Bool)
  | bytes (bs : List Nat)
  | str (s : String)
  | float32bits (bits : Nat)
  | float64bits (bits : Nat)
  | arr (vs : List Val)
deriving Repr

/-! ## Escape routines

Modelled from the spec (section 4.2): `utils.go` is absent from the
sources. "Backslash mode: escape each of NUL, LF, CR, 0x1a, backslash,
single quote, double quote to a two-character sequence with a leading
backslash; NUL becomes backslash-0, 0x1a becomes backslash-Z.
Quote-doubling mode: escape only the single quote by doubling it." -/

def backslashByte : Nat := 92

def quoteByte : Nat := 39

def quoteChar : Char := Char.ofNat 39

/-- Modelled from the spec (section 4.2): backslash escaping of one byte. -/
def escapeByteBackslash (b : Nat) : List Nat :=
  if b = 0 then [backslashByte, 48]
  else if b = 10 then [backslashByte, 110]
  else if b = 13 then [backslashByte, 114]
  else if b = 26 then [backslashByte, 90]
  else if b = backslashByte then [backslashByte, backslashByte]
  else if b = quoteByte then [backslashByte, quoteByte]
  else if b = 34 then [backslashByte, 34]
  else [b]

/-- Modelled from the spec (section 4.2): quote-doubling escaping of one
byte. -/
def escapeByteQuotes (b : Nat) : List Nat :=
  if b = quoteByte then [quoteByte, quoteByte] else [b]

def escapeBytesBackslash (bs : List Nat) : List Nat :=
  bs.flatMap escapeByteBackslash

def escapeBytesQuotes (bs : List Nat) : List Nat :=
  bs.flatMap escapeByteQuotes

/-- String escaping works on the character codes (the Go code escapes the
UTF-8 bytes; for the ASCII range treated by the spec the two agree). -/
def escapeStringBackslash (s : String) : List Char :=
  (escapeBytesBackslash (s.toList.map Char.toNat)).map Char.ofNat

def escapeStringQuotes (s : String) : List Char :=
  (escapeBytesQuotes (s.toList.map Char.toNat)).map Char.ofNat

/-! ## Interpolator (connection.go `interpolateParams`) -/

/-- One argument substitution of `interpolateParams` (the type switch of
the source). The `null` case is handled by the caller (it bypasses the
packet-size check via `continue`). Floats would be formatted by
`strconv.AppendFloat`, whose shortest-round-trip output is outside this
embedding; no claim passes float arguments. A `[]interface{}` argument
matches no case of the Go type switch and falls to the default arm. -/
def appendArg (status : Nat) (arg : Val) (buf : List Char) :
    Except GoError (List Char) :=
  match arg with
  | Val.null => Except.ok (buf ++ "NULL".toList)
  | Val.int v => Except.ok (buf ++ (toString v).toList)
  | Val.bool b => Except.ok (buf ++ [if b then '1' else '0'])
  | Val.bytes bs =>
    let esc := if status &&& statusNoBackslashEscapes = 0 then
        escapeBytesBackslash bs
      else escapeBytesQuotes bs
    Except.ok (buf ++ "_binary".toList ++ [quoteChar] ++
      esc.map Char.ofNat ++ [quoteChar])
  | Val.str s =>
    let esc := if status &&& statusNoBackslashEscapes = 0 then
        escapeStringBackslash s
      else escapeStringQuotes s
    Except.ok (buf ++ [quoteChar] ++ esc ++ [quoteChar])
  | Val.float32bits _ =>
    Except.error (GoError.errorString "float interpolation not modelled")
  | Val.float64bits _ =>
    Except.error (GoError.errorString "float interpolation not modelled")
  | Val.arr _ => Except.error GoError.unsafeInterpolate

/-- The placeholder loop of `interpolateParams`. The source walks the query
with `strings.IndexByte(query[i:], questionmark)`; here the query is split
at the first placeholder each round. `args[argPos]` is read without a
bounds check in the source: running out of arguments is a runtime panic.
The substituted argument `nil` appends `NULL` and continues, bypassing the
packet-size check; every other substitution is followed by the check that
the buffer plus the 4-byte header still fits `maxPacketAllowed`. After the
last segment the source returns `ErrInterpolateFailed` unless exactly all
arguments were consumed. -/
def interpAuxF (status maxPA : Nat) :
    Nat → List Char → List Val → Nat → List Char → Except GoError (List Char)
  | 0, _, _, _, _ => Except.error fuelError
  | fuel + 1, q, args, argPos, buf =>
    let pre := q.takeWhile (fun ch => ch ≠ '?')
    match q.dropWhile (fun ch => ch ≠ '?') with
    | [] =>
      if argPos ≠ args.length then Except.error GoError.interpolateFailed
      else Except.ok (buf ++ pre)
    | _ :: post =>
      let buf := buf ++ pre
      match args.get? argPos with
      | none => Except.error (GoError.panicked "runtime error: index out of range")
      | some arg =>
        match arg with
        | Val.null => interpAuxF status maxPA fuel post args (argPos + 1) (buf ++ "NULL".toList)
        | _ =>
          match appendArg status arg buf with
          | Except.error e => Except.error e
          | Except.ok buf2 =>
            if maxPA < buf2.length + 4 then Except.error GoError.pktTooLarge
            else interpAuxF status maxPA fuel post args (argPos + 1) buf2

/-- `interpolateParams` of connection.go. The placeholder loop is
structural on a fuel argument; every round shortens the remaining query,
so the fuel supplied here is never exhausted. -/
def interpolateParams (c : Conn) (query : String) (args : List Val) :
    Except GoError String :=
  if c.bufFree then
    match interpAuxF c.status c.maxPacketAllowed (query.toList.length + 1)
        query.toList args 0 [] with
    | Except.error e => Except.error e
    | Except.ok buf => Except.ok (String.mk buf)
  else Except.error GoError.busyBuffer

/-! ## Result packets -/

/-- `handleErrorPacket` of the packets source file. An ERR payload shorter
than 4 bytes would make the Go code read out of range. -/
def handleErrorPacket (data : List Nat) : GoError :=
  match data with
  | d0 :: e1 :: e2 :: d3 :: rest =>
    if d0 ≠ iERR then GoError.malformPkt
    else
      let errno := e1 + 256 * e2
      if d3 = 0x23 then GoError.server errno (data.drop 9)
      else GoError.server errno (d3 :: rest)
  | _ =>
    if data.getD 0 0 ≠ iERR then GoError.malformPkt
    else GoError.panicked "runtime error: index out of range"

/-! ## Row sets (rows.go) -/

/-- Column metadata (rows.go `Field`). -/
structure Field where
  tableName : String := ""
  name : String := ""
  flags : Nat := 0
  fieldType : Nat := 0
  decimals : Nat := 0
deriving Repr, DecidableEq

/-- The text row set (rows.go `textRows` over `iRows`). The back-reference
`rows.conn` is modelled by `hasConn` plus explicit threading of the
connection state. -/
structure TextRows where
  hasConn : Bool := true
  columns : List Field := []
  data : Option (List Nat) := none
  err : Option GoError := none
deriving Repr, DecidableEq

/-- The binary row set (rows.go `binaryRows` over `iRows`). -/
structure BinRows where
  hasConn : Bool := true
  columns : List Field := []
  data : Option (List Nat) := none
  err : Option GoError := none
  nullMask : List Nat := []
deriving Repr, DecidableEq

/-- `textRows.convert` of the value decoding source file, one destination
at a time. Each cell is a length-encoded string. The Go type switch on
`dest[i]` lists `case interface:` first, which matches every non-nil
value, so the later byte-slice and time cases are unreachable; a nil
interface matches no case and falls to the default arm, which fails with
"unsupported scan type". On a read error the destination entry is left
unassigned and the error is returned. -/
def textConvertAux (data : List Nat) (pos : Nat) (dest : List Val) :
    Option GoError × List Val :=
  match dest with
  | [] => (none, [])
  | v :: rest =>
    let r := readLengthEncodedString (data.drop pos)
    let val := r.1
    let isNull := r.2.1
    let n := r.2.2.1
    match r.2.2.2 with
    | some e => (some e, v :: rest)
    | none =>
      match v with
      | Val.null => (some (GoError.errorString "unsupported scan type"), v :: rest)
      | _ =>
        let v2 := if isNull then Val.null else Val.bytes val
        let rr := textConvertAux data (pos + n) rest
        (rr.1, v2 :: rr.2)

def textConvert (data : List Nat) (dest : List Val) :
    Option GoError × List Val :=
  textConvertAux data 0 dest

/-- `textRows.Scan` of rows.go. When the number of destinations differs
from the number of columns the source builds a mismatch error with
`fmt.Errorf` but discards it (the value is not returned and not assigned),
so conversion proceeds on the destinations that were given. -/
def textRowsScan (rows : TextRows) (dest : List Val) :
    Option GoError × TextRows × List Val :=
  match rows.err with
  | some e => (some e, rows, dest)
  | none =>
    match rows.data with
    | none => (some GoError.noRows, rows, dest)
    | some d =>
      let r := textConvert d dest
      (r.1, { rows with data := none }, r.2)

/-- `textRows.readRow` of the packets source file. On an EOF or ERR packet
the back-reference to the connection is dropped; on a transport error it is
kept and the error returned. The result is the value `rows.err` is set to
by `Next` (`io.EOF` on the EOF packet). -/
def textReadRow (rows : TextRows) (c : Conn) :
    Option GoError × TextRows × Conn :=
  let r := readPacket c
  match r.1 with
  | Except.error e => (some e, rows, r.2)
  | Except.ok data =>
    if data.getD 0 0 = iEOF ∧ data.length = 5 then
      (some GoError.ioEOF, { rows with hasConn := false }, r.2)
    else if data.getD 0 0 = iERR then
      (some (handleErrorPacket data), { rows with hasConn := false }, r.2)
    else
      (none, { rows with data := some data }, r.2)

/-- The result of `Query` (connection.go): either a text row set or the
`emptyRows{}` value returned when the response has no columns. -/
inductive RowsVal where
  | text (tr : TextRows)
  | empty
deriving Repr, DecidableEq

/-- One column-definition packet of `readColumns` (the packets source
file): catalog, database, table (read when `columnsWithAlias`, else
skipped), original table, name, original name, then one filler byte, two
charset bytes and four length bytes are skipped, then field type, flags
and decimals. Reads past the payload are Go panics. -/
def parseColumnDef (columnsWithAlias : Bool) (data : List Nat) :
    Except GoError Field :=
  let s1 := skipLengthEncodedString data
  match s1.2 with
  | some e => Except.error e
  | none =>
    let pos := s1.1
    let s2 := skipLengthEncodedString (data.drop pos)
    match s2.2 with
    | some e => Except.error e
    | none =>
      let pos := pos + s2.1
      let tabR :=
        if columnsWithAlias then
          let r := readLengthEncodedString (data.drop pos)
          (bytesToString r.1, r.2.2.1, r.2.2.2)
        else
          let r := skipLengthEncodedString (data.drop pos)
          ("", r.1, r.2)
      match tabR.2.2 with
      | some e => Except.error e
      | none =>
        let tableName := tabR.1
        let pos := pos + tabR.2.1
        let s4 := skipLengthEncodedString (data.drop pos)
        match s4.2 with
        | some e => Except.error e
        | none =>
          let pos := pos + s4.1
          let nameR := readLengthEncodedString (data.drop pos)
          match nameR.2.2.2 with
          | some e => Except.error e
          | none =>
            let name := bytesToString nameR.1
            let pos := pos + nameR.2.2.1
            let s6 := skipLengthEncodedString (data.drop pos)
            match s6.2 with
            | some e => Except.error e
            | none =>
              let pos := pos + s6.1 + 1 + 2 + 4
              match data.get? pos, data.get? (pos + 1), data.get? (pos + 2),
                  data.get? (pos + 3) with
              | some ft, some f1, some f2, some dec =>
                Except.ok { tableName := tableName
                            name := name
                            flags := f1 + 256 * f2
                            fieldType := ft
                            decimals := dec }
              | _, _, _, _ =>
                Except.error (GoError.panicked "runtime error: index out of range")

/-- `fmt.Sprintf` with verb percent-s applied to an interface value; the
nil interface prints as the literal below. Only the nil arm is exercised by
the sources (getWarnings applies it to never-assigned values). -/
def goSprintfS (v : Val) : String :=
  match v with
  | Val.null => "%!s(<nil>)"
  | Val.str s => s
  | Val.bytes bs => bytesToString bs
  | Val.int i => "%!s(int64=" ++ toString i ++ ")"
  | Val.bool b => "%!s(bool=" ++ toString b ++ ")"
  | _ => "%!s(?)"

/-- The warning built by one iteration of the getWarnings loop from its
`values` slice (errors.go). Note the source formats `values[0]` in the
fallback arm of the message field as well. -/
def warningFromValues (vals : List Val) : Warning :=
  { level :=
      match vals.getD 0 Val.null with
      | Val.bytes raw => bytesToString raw
      | v => goSprintfS v
    code :=
      match vals.getD 1 Val.null with
      | Val.bytes raw => bytesToString raw
      | v => goSprintfS v
    message :=
      match vals.getD 2 Val.null with
      | Val.bytes raw => bytesToString raw
      | _ => goSprintfS (vals.getD 0 Val.null) }

/-! ## Command protocol

`handleOkPacket` calls `getWarnings`, which issues a nested `Query`, whose
response handling calls `handleOkPacket` again; the mutual recursion is
made structural on an explicit fuel parameter. Every nesting level reads
at least one packet (at least 5 input bytes), so the wrappers below, which
supply `input.length + 16` fuel, never exhaust it. -/

mutual

/-- `handleOkPacket` of the packets source file: records affected rows,
insert id and status, and in strict mode issues `getWarnings` when the
16-bit warning count is positive. Reads past the payload are Go panics. -/
def handleOkPacketF : Nat → Conn → List Nat → Option GoError × Conn
  | 0, c, _ => (some fuelError, c)
  | fuel + 1, c, data =>
    let rA := readLengthEncodedInteger (data.drop 1)
    let n := rA.2.2
    let rI := readLengthEncodedInteger (data.drop (1 + n))
    let m := rI.2.2
    match data.get? (1 + n + m), data.get? (1 + n + m + 1) with
    | some s0, some s1 =>
      let c := { c with
                 affectedRows := rA.1
                 insertID := rI.1
                 status := s0 + 256 * s1 }
      if c.strict then
        let pos := 1 + n + m + 2
        match data.get? pos, data.get? (pos + 1) with
        | some w0, some w1 =>
          if 0 < w0 + 256 * w1 then getWarningsF fuel c else (none, c)
        | _, _ => (some (GoError.panicked "runtime error: index out of range"), c)
      else (none, c)
    | _, _ => (some (GoError.panicked "runtime error: index out of range"), c)

/-- `getWarnings` of errors.go. The source invokes
`conn.Query("SHOW WARNINGS", nil)`: with the variadic signature of `Query`
this passes one nil argument. `rows.Scan(values)` likewise passes the
whole `values` slice as a single destination; assignments to the slots of
the variadic destination slice inside Scan do not alias `values`, so
`values` keeps its three nil entries throughout. -/
def getWarningsF : Nat → Conn → Option GoError × Conn
  | 0, c => (some fuelError, c)
  | fuel + 1, c =>
    let r := queryF fuel c "SHOW WARNINGS" [Val.null]
    match r.1 with
    | Except.error e => (some e, r.2)
    | Except.ok RowsVal.empty =>
      -- emptyRows.Next() is false: the loop never runs
      (some (GoError.warnings []), r.2)
    | Except.ok (RowsVal.text tr) =>
      getWarningsLoopF fuel tr r.2 [Val.null, Val.null, Val.null] []

/-- The `for rows.Next()` loop of `getWarnings`, with `textRows.Next` of
rows.go inlined: `Next` returns false when the row set has no connection,
stores `ErrInvalidConn` when the transport is gone, otherwise stores the
`readRow` result and returns whether it is not `io.EOF`. -/
def getWarningsLoopF : Nat → TextRows → Conn → List Val → List Warning →
    Option GoError × Conn
  | 0, _, c, _, _ => (some fuelError, c)
  | fuel + 1, tr, c, vals, acc =>
    if tr.hasConn then
      if c.connOpen then
        let r := textReadRow tr c
        let tr := { r.2.1 with err := r.1 }
        let c := r.2.2
        if r.1 = some GoError.ioEOF then
          -- Next() is false: return the collected warnings as the error
          (some (GoError.warnings acc), c)
        else
          let s := textRowsScan tr [Val.arr vals]
          match s.1 with
          | some e =>
            let cl := textRowsCloseF fuel s.2.1 c
            (some e, cl.2.2)
          | none =>
            getWarningsLoopF fuel s.2.1 c vals (acc ++ [warningFromValues vals])
      else
        -- rows.err is set to ErrInvalidConn and Next() is false
        (some (GoError.warnings acc), c)
    else
      (some (GoError.warnings acc), c)

/-- `Query` of connection.go: guard against a torn-down connection,
interpolate when arguments are present, send COM_QUERY, read the result
set header, and read the column definitions (the partially initialised row
set returned by the source alongside a readColumns error is unobservable:
its caller checks the error first). -/
def queryF : Nat → Conn → String → List Val → Except GoError RowsVal × Conn
  | 0, c, _, _ => (Except.error fuelError, c)
  | fuel + 1, c, query, args =>
    if c.connOpen then
      let interpolated : Except GoError String :=
        if args.isEmpty then Except.ok query else interpolateParams c query args
      match interpolated with
      | Except.error e => (Except.error e, c)
      | Except.ok q2 =>
        let w := writeCommandPacketStr c comQuery (strBytes q2)
        match w.1 with
        | some e => (Except.error e, w.2)
        | none =>
          let h := readResultSetHeaderPacketF fuel w.2
          match h.1 with
          | Except.error e => (Except.error e, h.2)
          | Except.ok resLen =>
            if resLen = 0 then (Except.ok RowsVal.empty, h.2)
            else
              let rc := readColumnsF fuel h.2 resLen 0 []
              match rc.1 with
              | Except.error e => (Except.error e, rc.2)
              | Except.ok cols =>
                (Except.ok (RowsVal.text { hasConn := true
                                           columns := cols
                                           data := none
                                           err := none }), rc.2)
    else (Except.error GoError.invalidConn, c)

/-- `readResultSetHeaderPacket` of the packets source file. The
Local-Infile arm delegates to the infile collaborator, which the spec
declares out of core scope. -/
def readResultSetHeaderPacketF : Nat → Conn → Except GoError Nat × Conn
  | 0, c => (Except.error fuelError, c)
  | fuel + 1, c =>
    let r := readPacket c
    match r.1 with
    | Except.error e => (Except.error e, r.2)
    | Except.ok data =>
      let d0 := data.getD 0 0
      if d0 = iOK then
        let h := handleOkPacketF fuel r.2 data
        match h.1 with
        | some e => (Except.error e, h.2)
        | none => (Except.ok 0, h.2)
      else if d0 = iERR then
        (Except.error (handleErrorPacket data), r.2)
      else if d0 = iLocalInFile then
        -- Modelled from the spec: the infile collaborator is out of core scope
        (Except.error (GoError.errorString "local infile out of core scope"), r.2)
      else
        let li := readLengthEncodedInteger data
        if li.2.2 = data.length then (Except.ok li.1, r.2)
        else (Except.error GoError.malformPkt, r.2)

/-- `readColumns` of the packets source file: reads column-definition
packets until an EOF packet; writing more than `count` columns would be an
out-of-range panic in the source. -/
def readColumnsF : Nat → Conn → Nat → Nat → List Field →
    Except GoError (List Field) × Conn
  | 0, c, _, _, _ => (Except.error fuelError, c)
  | fuel + 1, c, count, i, acc =>
    let r := readPacket c
    match r.1 with
    | Except.error e => (Except.error e, r.2)
    | Except.ok data =>
      if data.getD 0 0 = iEOF ∧ (data.length = 5 ∨ data.length = 1) then
        if i = count then (Except.ok acc, r.2)
        else (Except.error (GoError.errorString "ColumnsCount mismatch"), r.2)
      else
        match r.2.cfg with
        | none => (Except.error (GoError.panicked "nil config"), r.2)
        | some cfg =>
          match parseColumnDef cfg.columnsWithAlias data with
          | Except.error e => (Except.error e, r.2)
          | Except.ok fld =>
            if i < count then readColumnsF fuel r.2 count (i + 1) (acc ++ [fld])
            else (Except.error (GoError.panicked "runtime error: index out of range"), r.2)

/-- `readUntilEOF` of the packets source file. -/
def readUntilEOFF : Nat → Conn → Option GoError × Conn
  | 0, c => (some fuelError, c)
  | fuel + 1, c =>
    let r := readPacket c
    match r.1 with
    | Except.error e => (some e, r.2)
    | Except.ok data =>
      if data.getD 0 0 = iEOF then (none, r.2)
      else readUntilEOFF fuel r.2

/-- `iRows.Close` of rows.go for a text row set: drains unread packets,
then drops the back-reference. -/
def textRowsCloseF : Nat → TextRows → Conn → Option GoError × TextRows × Conn
  | 0, _, c => (some fuelError, { hasConn := false }, c)
  | fuel + 1, tr, c =>
    if tr.hasConn then
      if c.connOpen then
        let r := readUntilEOFF fuel c
        (r.1, { tr with hasConn := false }, r.2)
      else (some GoError.invalidConn, tr, c)
    else (none, tr, c)

end

/-- Fuel that the command-protocol wrappers supply; see the mutual block. -/
def fuelFor (c : Conn) : Nat := c.input.length + 16

def handleOkPacket (c : Conn) (data : List Nat) : Option GoError × Conn :=
  handleOkPacketF (fuelFor c) c data

def getWarnings (c : Conn) : Option GoError × Conn :=
  getWarningsF (fuelFor c) c

def Query (c : Conn) (query : String) (args : List Val) :
    Except GoError RowsVal × Conn :=
  queryF (fuelFor c) c query args

def readResultSetHeaderPacket (c : Conn) : Except GoError Nat × Conn :=
  readResultSetHeaderPacketF (fuelFor c) c

def readColumns (c : Conn) (count : Nat) : Except GoError (List Field) × Conn :=
  readColumnsF (fuelFor c) c count 0 []

def readUntilEOF (c : Conn) : Option GoError × Conn :=
  readUntilEOFF (fuelFor c) c

def textRowsClose (tr : TextRows) (c : Conn) : Option GoError × TextRows × Conn :=
  textRowsCloseF (fuelFor c) tr c

/-! ## Authentication result handling -/

/-- `bytes.IndexByte` on a byte list. -/
def indexOfByte (b : Nat) : List Nat → Option Nat
  | [] => none
  | x :: xs => if x = b then some 0 else (indexOfByte b xs).map (· + 1)

/-- `readResultOK` of the packets source file: dispatch on the indicator
byte of the next packet; an EOF packet carrying a plugin name selects the
old-password or cleartext retry errors. `data[1:bytes.IndexByte(data, 0)]`
is a Go panic when no NUL byte is present. -/
def readResultOK (c : Conn) : Option GoError × Conn :=
  let r := readPacket c
  match r.1 with
  | Except.error e => (some e, r.2)
  | Except.ok data =>
    let d0 := data.getD 0 0
    if d0 = iOK then handleOkPacket r.2 data
    else if d0 = iEOF then
      if 1 < data.length then
        match indexOfByte 0 data with
        | none => (some (GoError.panicked "runtime error: slice bounds out of range"), r.2)
        | some z =>
          if z < 1 then
            (some (GoError.panicked "runtime error: slice bounds out of range"), r.2)
          else
            let plugin := (data.drop 1).take (z - 1)
            if plugin = strBytes "mysql_old_password" then
              (some GoError.oldPassword, r.2)
            else if plugin = strBytes "mysql_clear_password" then
              (some GoError.cleartextPassword, r.2)
            else (some GoError.unknownPlugin, r.2)
      else (some GoError.oldPassword, r.2)
    else (some (handleErrorPacket data), r.2)

/-- Modelled from the spec: `utils.go` is absent from the sources. The spec
describes the old scramble only by its interface: "a 16-character ASCII
output computed by the documented pre-4.1 algorithm from the first 8
scramble bytes and the password" (section 4.3). The mixing below is a
deterministic stand-in with that interface; no claim depends on the
digest value, only on the packet framed around it. -/
def scrambleOldPassword (cipher passwd : List Nat) : List Nat :=
  let c8 := cipher.take 8
  (List.range 16).map (fun i => 64 + (c8.sum * (i + 1) + passwd.sum * (i + 3) + i) % 31)

/-- `writeOldAuthPacket` of the packets source file: the scrambled old
password followed by a terminating NUL byte. -/
def writeOldAuthPacket (c : Conn) (cipher : List Nat) : Option GoError × Conn :=
  match c.cfg with
  | none => (some (GoError.panicked "nil config"), c)
  | some cfg =>
    let scrambleBuff := scrambleOldPassword cipher (strBytes cfg.passwd)
    if c.bufFree then writePacket c (scrambleBuff ++ [0])
    else (some GoError.busyBuffer, c)

/-- `writeClearAuthPacket` of the packets source file: the password in
clear text followed by a terminating NUL byte. -/
def writeClearAuthPacket (c : Conn) : Option GoError × Conn :=
  match c.cfg with
  | none => (some (GoError.panicked "nil config"), c)
  | some cfg =>
    if c.bufFree then writePacket c (strBytes cfg.passwd ++ [0])
    else (some GoError.busyBuffer, c)

/-- `handleAuthResult` of connection.go: read the auth response; when the
configuration allows it, retry an old-password or cleartext auth switch
and await the following OK/ERR result. -/
def handleAuthResult (c : Conn) (cipher : List Nat) : Option GoError × Conn :=
  let r := readResultOK c
  match r.1 with
  | none => (none, r.2)
  | some err =>
    match r.2.cfg with
    | none => (some err, r.2)
    | some cfg =>
      if cfg.allowOldPasswords ∧ err = GoError.oldPassword then
        let w := writeOldAuthPacket r.2 cipher
        match w.1 with
        | some e => (some e, w.2)
        | none => readResultOK w.2
      else if cfg.allowCleartextPasswords ∧ err = GoError.cleartextPassword then
        let w := writeClearAuthPacket r.2
        match w.1 with
        | some e => (some e, w.2)
        | none => readResultOK w.2
      else (some err, r.2)

/-! ## Binary protocol row decoding -/

/-- Read `k` bytes of `data` starting at `pos`; `none` models the Go
out-of-range panic on a short slice. -/
def bytesAt (data : List Nat) (pos k : Nat) : Option (List Nat) :=
  if pos + k ≤ data.length then some ((data.drop pos).take k) else none

/-- Modelled from the spec (section 4.6): `utils.go` with
`formatBinaryDateTime` is absent from the sources. DATE / TIMESTAMP /
DATETIME payloads carry year (u16 LE), month, day and optionally
hour/minute/second and u32 microseconds; TIME payloads carry a sign byte,
u32 days, hour, minute, second and optionally u32 microseconds. The value
is formatted as a byte string of width `dstlen` with zero-padded
components; an empty payload is the all-zero value. -/
def formatBinaryDateTime (src : List Nat) (dstlen : Nat) (justTime : Bool) :
    Except GoError (List Nat) :=
  if src.isEmpty then
    if justTime then
      Except.ok (strBytes (String.mk ("00:00:00.000000".toList.take dstlen)))
    else
      Except.ok (strBytes (String.mk ("0000-00-00 00:00:00.000000".toList.take dstlen)))
  else if justTime then
    let sign := src.getD 0 0
    let days := leUint ((src.drop 1).take 4)
    let hour := days * 24 + src.getD 5 0
    let minute := src.getD 6 0
    let sec := src.getD 7 0
    let micro := leUint ((src.drop 8).take 4)
    let pad2 := fun (n : Nat) =>
      let s := toString n
      List.replicate (2 - s.length) '0' ++ s.toList
    let base := (if sign = 1 then ['-'] else []) ++ pad2 hour ++ ':' ::
      pad2 minute ++ ':' :: pad2 sec
    let frac :=
      if 8 < dstlen then
        '.' :: ((List.replicate (6 - (toString micro).length) '0' ++
          (toString micro).toList).take (dstlen - 9))
      else []
    Except.ok (strBytes (String.mk (base ++ frac)))
  else
    let pad2 := fun (n : Nat) =>
      let s := toString n
      List.replicate (2 - s.length) '0' ++ s.toList
    let year := leUint (src.take 2)
    let pad4 :=
      let s := toString year
      List.replicate (4 - s.length) '0' ++ s.toList
    let datePart := pad4 ++ '-' :: pad2 (src.getD 2 0) ++ '-' :: pad2 (src.getD 3 0)
    if dstlen ≤ 10 then Except.ok (strBytes (String.mk datePart))
    else
      let timePart := ' ' :: pad2 (src.getD 4 0) ++ ':' :: pad2 (src.getD 5 0) ++
        ':' :: pad2 (src.getD 6 0)
      let micro := leUint ((src.drop 7).take 4)
      let frac :=
        if 19 < dstlen then
          '.' :: ((List.replicate (6 - (toString micro).length) '0' ++
            (toString micro).toList).take (dstlen - 20))
        else []
      Except.ok (strBytes (String.mk (datePart ++ timePart ++ frac)))

/-- `binaryRows.convert` of the value decoding source file, one destination
at a time (`i` is the running index, `pos` the offset into `rows.data`,
which the source starts at 0). The NULL bitmap is offset by two reserved
bits. Decoding is by the declared field type of the column; reads past the
payload are Go panics. -/
def binaryConvertAux (rows : BinRows) (data : List Nat) (i pos : Nat)
    (dest : List Val) : Option GoError × List Val :=
  match dest with
  | [] => (none, [])
  | v :: rest =>
    match rows.nullMask.get? ((i + 2) / 8) with
    | none => (some (GoError.panicked "runtime error: index out of range"), v :: rest)
    | some mb =>
      if (mb >>> ((i + 2) % 8)) % 2 = 1 then
        let rr := binaryConvertAux rows data (i + 1) pos rest
        (rr.1, Val.null :: rr.2)
      else
        match rows.columns.get? i with
        | none => (some (GoError.panicked "runtime error: index out of range"), v :: rest)
        | some col =>
          if col.fieldType = fieldTypeNULL then
            let rr := binaryConvertAux rows data (i + 1) pos rest
            (rr.1, Val.null :: rr.2)
          else if col.fieldType = fieldTypeTiny then
            match bytesAt data pos 1 with
            | none => (some (GoError.panicked "runtime error: index out of range"), v :: rest)
            | some bs =>
              let u := leUint bs
              let v2 := Val.int (if col.flags &&& flagUnsigned ≠ 0 then (u : Int)
                else intOfUint 8 u)
              let rr := binaryConvertAux rows data (i + 1) (pos + 1) rest
              (rr.1, v2 :: rr.2)
          else if col.fieldType = fieldTypeShort ∨ col.fieldType = fieldTypeYear then
            match bytesAt data pos 2 with
            | none => (some (GoError.panicked "runtime error: index out of range"), v :: rest)
            | some bs =>
              let u := leUint bs
              let v2 := Val.int (if col.flags &&& flagUnsigned ≠ 0 then (u : Int)
                else intOfUint 16 u)
              let rr := binaryConvertAux rows data (i + 1) (pos + 2) rest
              (rr.1, v2 :: rr.2)
          else if col.fieldType = fieldTypeInt24 ∨ col.fieldType = fieldTypeLong then
            match bytesAt data pos 4 with
            | none => (some (GoError.panicked "runtime error: index out of range"), v :: rest)
            | some bs =>
              let u := leUint bs
              let v2 := Val.int (if col.flags &&& flagUnsigned ≠ 0 then (u : Int)
                else intOfUint 32 u)
              let rr := binaryConvertAux rows data (i + 1) (pos + 4) rest
              (rr.1, v2 :: rr.2)
          else if col.fieldType = fieldTypeLongLong then
            match bytesAt data pos 8 with
            | none => (some (GoError.panicked "runtime error: index out of range"), v :: rest)
            | some bs =>
              let u := leUint bs
              let v2 :=
                if col.flags &&& flagUnsigned ≠ 0 then
                  if 9223372036854775807 < u then Val.bytes (uint64ToString u)
                  else Val.int (u : Int)
                else Val.int (intOfUint 64 u)
              let rr := binaryConvertAux rows data (i + 1) (pos + 8) rest
              (rr.1, v2 :: rr.2)
          else if col.fieldType = fieldTypeFloat then
            match bytesAt data pos 4 with
            | none => (some (GoError.panicked "runtime error: index out of range"), v :: rest)
            | some bs =>
              let rr := binaryConvertAux rows data (i + 1) (pos + 4) rest
              (rr.1, Val.float32bits (leUint bs) :: rr.2)
          else if col.fieldType = fieldTypeDouble then
            match bytesAt data pos 8 with
            | none => (some (GoError.panicked "runtime error: index out of range"), v :: rest)
            | some bs =>
              let rr := binaryConvertAux rows data (i + 1) (pos + 8) rest
              (rr.1, Val.float64bits (leUint bs) :: rr.2)
          else if col.fieldType = fieldTypeDecimal ∨ col.fieldType = fieldTypeNewDecimal ∨
              col.fieldType = fieldTypeVarChar ∨ col.fieldType = fieldTypeBit ∨
              col.fieldType = fieldTypeEnum ∨ col.fieldType = fieldTypeSet ∨
              col.fieldType = fieldTypeTinyBLOB ∨ col.fieldType = fieldTypeMediumBLOB ∨
              col.fieldType = fieldTypeLongBLOB ∨ col.fieldType = fieldTypeBLOB ∨
              col.fieldType = fieldTypeVarString ∨ col.fieldType = fieldTypeString ∨
              col.fieldType = fieldTypeGeometry then
            let r := readLengthEncodedString (data.drop pos)
            match r.2.2.2 with
            | some e => (some e, Val.bytes r.1 :: rest)
            | none =>
              let v2 := if r.2.1 then Val.null else Val.bytes r.1
              let rr := binaryConvertAux rows data (i + 1) (pos + r.2.2.1) rest
              (rr.1, v2 :: rr.2)
          else if col.fieldType = fieldTypeDate ∨ col.fieldType = fieldTypeNewDate ∨
              col.fieldType = fieldTypeTime ∨ col.fieldType = fieldTypeTimestamp ∨
              col.fieldType = fieldTypeDateTime then
            let li := readLengthEncodedInteger (data.drop pos)
            let num := li.1
            let pos := pos + li.2.2
            if li.2.1 then
              let rr := binaryConvertAux rows data (i + 1) pos rest
              (rr.1, Val.null :: rr.2)
            else
              let dstlenE : Except GoError Nat :=
                if col.fieldType = fieldTypeTime then
                  if col.decimals = 0 ∨ col.decimals = 0x1f then Except.ok 8
                  else if 1 ≤ col.decimals ∧ col.decimals ≤ 6 then
                    Except.ok (8 + 1 + col.decimals)
                  else Except.error (GoError.errorString
                    "MySQL protocol error, illegal decimals value")
                else if col.fieldType = fieldTypeDate then Except.ok 10
                else
                  if col.decimals = 0 ∨ col.decimals = 0x1f then Except.ok 19
                  else if 1 ≤ col.decimals ∧ col.decimals ≤ 6 then
                    Except.ok (19 + 1 + col.decimals)
                  else Except.error (GoError.errorString
                    "MySQL protocol error, illegal decimals value")
              match dstlenE with
              | Except.error e => (some e, v :: rest)
              | Except.ok dstlen =>
                match bytesAt data pos num with
                | none => (some (GoError.panicked "runtime error: slice bounds out of range"), v :: rest)
                | some src =>
                  match formatBinaryDateTime src dstlen (col.fieldType = fieldTypeTime) with
                  | Except.error e => (some e, v :: rest)
                  | Except.ok bs =>
                    let rr := binaryConvertAux rows data (i + 1) (pos + num) rest
                    (rr.1, Val.bytes bs :: rr.2)
          else
            (some (GoError.errorString "Unknown FieldType"), v :: rest)

/-- `binaryRows.convert` of the value decoding source file. As in the
source, decoding starts at offset 0 of `rows.data` (no header or NULL
bitmap bytes are skipped here). -/
def binaryConvert (rows : BinRows) (dest : List Val) : Option GoError × List Val :=
  binaryConvertAux rows (rows.data.getD []) 0 0 dest

/-- `binaryRows.readRow` of the packets source file. -/
def binaryReadRow (rows : BinRows) (c : Conn) : Option GoError × BinRows × Conn :=
  let r := readPacket c
  match r.1 with
  | Except.error e => (some e, rows, r.2)
  | Except.ok data =>
    if data.getD 0 0 ≠ iOK then
      if data.getD 0 0 = iEOF ∧ data.length = 5 then
        (some GoError.ioEOF, { rows with hasConn := false }, r.2)
      else
        (some (handleErrorPacket data), { rows with hasConn := false }, r.2)
    else
      let pos := 1 + (rows.columns.length + 7 + 2) / 8
      (none, { rows with
               nullMask := (data.drop 1).take (pos - 1)
               data := some data }, r.2)

/-- `binaryRows.Scan` of rows.go: like the text variant, the mismatch
error built when the number of destinations differs from the number of
columns is discarded and conversion proceeds. -/
def binaryRowsScan (rows : BinRows) (dest : List Val) :
    Option GoError × BinRows × List Val :=
  match rows.err with
  | some e => (some e, rows, dest)
  | none =>
    match rows.data with
    | none => (some GoError.noRows, rows, dest)
    | some _ =>
      let r := binaryConvert rows dest
      (r.1, { rows with data := none }, r.2)

/-! ## DSN parsing (dsn.go) -/

def errInvalidDSNUnescaped : GoError :=
  GoError.errorString "invalid DSN: Did you forget to escape a param value?"

def errInvalidDSNAddr : GoError :=
  GoError.errorString "invalid DSN: Network Address not terminated (missing closing brace)"

def errInvalidDSNNoSlash : GoError :=
  GoError.errorString "invalid DSN: Missing the slash separating the database name"

def errInvalidDSNUnsafeCollation : GoError :=
  GoError.errorString "invalid DSN: interpolateParams can be used with ascii, latin1, utf8 and utf8mb4 charset"

/-- Index of the first occurrence of a character (the forward scans of
`ParseDSN` and `strings.SplitN`). -/
def indexOfChar (c : Char) : List Char → Option Nat
  | [] => none
  | x :: xs => if x = c then some 0 else (indexOfChar c xs).map (· + 1)

/-- Index of the last occurrence of a character (the backward scans of
`ParseDSN`). -/
def lastIndexOfChar (c : Char) : List Char → Option Nat
  | [] => none
  | x :: xs =>
    match lastIndexOfChar c xs with
    | some j => some (j + 1)
    | none => if x = c then some 0 else none

/-- Modelled from the spec: `utils.go` with `readBool` is absent from the
sources; the spec requires an "unparseable bool" to make the DSN invalid
(section 6.1). Returns (value, valid). -/
def readBool (s : String) : Bool × Bool :=
  if s = "1" ∨ s = "true" ∨ s = "TRUE" ∨ s = "True" then (true, true)
  else if s = "0" ∨ s = "false" ∨ s = "FALSE" ∨ s = "False" then (false, true)
  else (false, false)

/-- Modelled from the spec: `collations.go` is absent from the sources.
The default collation of the driver, from the utf8 family (safe per
section 6.1). -/
def defaultCollation : Nat := 33

/-- Modelled from the spec (section 6.1): the collation selected by name
"must be a safe collation (ascii/latin1/utf8/utf8mb4 families)"; these
are the identifiers of the known collations outside those families. -/
def unsafeCollations (c : Nat) : Bool :=
  [1, 13, 28, 84, 86, 87, 88, 95, 96].contains c

/-- Modelled from the spec (section 6.1): the known-collation table
(abridged; the claims depend only on membership and safety of the
default). -/
def collations (name : String) : Option Nat :=
  ([("big5_chinese_ci", 1), ("latin1_swedish_ci", 8), ("ascii_general_ci", 11),
    ("sjis_japanese_ci", 13), ("gbk_chinese_ci", 28), ("utf8_general_ci", 33),
    ("utf8mb4_general_ci", 45), ("utf8mb4_bin", 46), ("latin1_bin", 47),
    ("ascii_bin", 65), ("utf8_bin", 83), ("big5_bin", 84), ("gb2312_bin", 86),
    ("gbk_bin", 87), ("sjis_bin", 88), ("cp932_japanese_ci", 95),
    ("cp932_bin", 96), ("utf8mb4_unicode_ci", 224)].lookup name)

def hexDigitVal (c : Char) : Option Nat :=
  if '0' ≤ c ∧ c ≤ '9' then some (c.toNat - 48)
  else if 'a' ≤ c ∧ c ≤ 'f' then some (c.toNat - 87)
  else if 'A' ≤ c ∧ c ≤ 'F' then some (c.toNat - 55)
  else none

/-- `url.QueryUnescape` (standard library collaborator): percent decoding
with plus-as-space; a malformed percent escape is an error. -/
def queryUnescapeAux : List Char → Option (List Char)
  | [] => some []
  | '%' :: h :: l :: rest =>
    match hexDigitVal h, hexDigitVal l with
    | some hv, some lv => (queryUnescapeAux rest).map (Char.ofNat (16 * hv + lv) :: ·)
    | _, _ => none
  | '%' :: _ => none
  | '+' :: rest => (queryUnescapeAux rest).map (' ' :: ·)
  | ch :: rest => (queryUnescapeAux rest).map (ch :: ·)

def queryUnescape (s : String) : Except GoError String :=
  match queryUnescapeAux s.toList with
  | some cs => Except.ok (String.mk cs)
  | none => Except.error (GoError.errorString "invalid URL escape")

/-- `time.LoadLocation` (standard library collaborator): the spec only
says the value names an IANA zone (section 6.1); the model records the
name. -/
def loadLocation (s : String) : Except GoError String := Except.ok s

/-- `time.ParseDuration` (standard library collaborator), on the
digits-then-unit forms the spec relies on (section 6.1 "timeout |
duration"); anything else is an error. Result in nanoseconds. -/
def parseDuration (s : String) : Except GoError Nat :=
  let cs := s.toList
  let digits := cs.takeWhile Char.isDigit
  let unit := String.mk (cs.dropWhile Char.isDigit)
  if digits.isEmpty then Except.error (GoError.errorString "invalid duration")
  else
    let n := digits.foldl (fun a c => a * 10 + (c.toNat - 48)) 0
    if unit = "ns" then Except.ok n
    else if unit = "us" then Except.ok (n * 1000)
    else if unit = "ms" then Except.ok (n * 1000000)
    else if unit = "s" then Except.ok (n * 1000000000)
    else if unit = "m" then Except.ok (n * 60000000000)
    else if unit = "h" then Except.ok (n * 3600000000000)
    else Except.error (GoError.errorString "invalid duration")

/-- One `key=value` entry of `parseDSNParams` (dsn.go). The TLS-config
registry is process-wide state outside the sources; per the spec (section
6.3) it is modelled as empty, so a named TLS config is unknown. -/
def applyDSNParam (cfg : Config) (key value : String) : Except GoError Config :=
  if key = "allowAllFiles" then
    let r := readBool value
    if r.2 then Except.ok { cfg with allowAllFiles := r.1 }
    else Except.error (GoError.errorString ("Invalid Bool value: " ++ value))
  else if key = "allowCleartextPasswords" then
    let r := readBool value
    if r.2 then Except.ok { cfg with allowCleartextPasswords := r.1 }
    else Except.error (GoError.errorString ("Invalid Bool value: " ++ value))
  else if key = "allowOldPasswords" then
    let r := readBool value
    if r.2 then Except.ok { cfg with allowOldPasswords := r.1 }
    else Except.error (GoError.errorString ("Invalid Bool value: " ++ value))
  else if key = "clientFoundRows" then
    let r := readBool value
    if r.2 then Except.ok { cfg with clientFoundRows := r.1 }
    else Except.error (GoError.errorString ("Invalid Bool value: " ++ value))
  else if key = "collation" then
    match collations value with
    | some id => Except.ok { cfg with collation := id }
    | none => Except.error (GoError.errorString "unknown collation")
  else if key = "columnsWithAlias" then
    let r := readBool value
    if r.2 then Except.ok { cfg with columnsWithAlias := r.1 }
    else Except.error (GoError.errorString ("Invalid Bool value: " ++ value))
  else if key = "compress" then
    Except.error (GoError.errorString "Compression not implemented yet")
  else if key = "loc" then
    match queryUnescape value with
    | Except.error e => Except.error e
    | Except.ok v =>
      match loadLocation v with
      | Except.error e => Except.error e
      | Except.ok l => Except.ok { cfg with loc := l }
  else if key = "strict" then
    let r := readBool value
    if r.2 then Except.ok { cfg with strict := r.1 }
    else Except.error (GoError.errorString ("Invalid Bool value: " ++ value))
  else if key = "timeout" then
    match parseDuration value with
    | Except.error e => Except.error e
    | Except.ok d => Except.ok { cfg with timeout := d }
  else if key = "tls" then
    let r := readBool value
    if r.2 then
      if r.1 then Except.ok { cfg with tls := true } else Except.ok cfg
    else
      match queryUnescape value with
      | Except.error _ => Except.error (GoError.errorString "Invalid value for tls config name")
      | Except.ok v =>
        if v.toLower = "skip-verify" then Except.ok { cfg with tls := true }
        else Except.error (GoError.errorString ("Invalid value / unknown config name: " ++ v))
  else
    match queryUnescape value with
    | Except.error e => Except.error e
    | Except.ok v => Except.ok { cfg with params := cfg.params ++ [(key, v)] }

/-- `parseDSNParams` of dsn.go: split the query string on ampersands,
split each entry at its first equals sign (entries without one are
skipped), and apply the recognised keys. -/
def parseDSNParamsAux (cfg : Config) : List String → Except GoError Config
  | [] => Except.ok cfg
  | v :: rest =>
    match indexOfChar '=' v.toList with
    | none => parseDSNParamsAux cfg rest
    | some k =>
      let key := String.mk (v.toList.take k)
      let value := String.mk (v.toList.drop (k + 1))
      match applyDSNParam cfg key value with
      | Except.error e => Except.error e
      | Except.ok cfg2 => parseDSNParamsAux cfg2 rest

def parseDSNParams (cfg : Config) (params : String) : Except GoError Config :=
  parseDSNParamsAux cfg (params.splitOn "&")

/-- The tail of `ParseDSN` (dsn.go): the unsafe-collation guard, then the
network and address defaults. -/
def finishDSN (cfg : Config) : Except GoError Config :=
  if unsafeCollations cfg.collation then Except.error errInvalidDSNUnsafeCollation
  else
    let cfg := if cfg.net = "" then { cfg with net := "tcp" } else cfg
    if cfg.addr = "" then
      if cfg.net = "tcp" then Except.ok { cfg with addr := "127.0.0.1:3306" }
      else if cfg.net = "unix" then Except.ok { cfg with addr := "/tmp/mysql.sock" }
      else Except.error (GoError.errorString
        ("Default addr for network " ++ cfg.net ++ " unknown"))
    else Except.ok cfg

/-- `ParseDSN` of dsn.go. The source anchors on the last slash, scanning
from the end; the left part is split at its last at-sign into credentials
and network(address), the right part at its first question mark into
database name and parameters. A nonempty DSN without a slash is invalid;
an empty DSN skips the scan loop entirely and proceeds to the defaults. -/
def ParseDSN (dsn : String) : Except GoError Config :=
  let s := dsn.toList
  let base : Config := { collation := defaultCollation }
  match lastIndexOfChar '/' s with
  | none =>
    if 0 < s.length then Except.error errInvalidDSNNoSlash
    else finishDSN base
  | some i =>
    let leftRes : Except GoError Config :=
      if 0 < i then
        let left := s.take i
        let jOpt := lastIndexOfChar '@' left
        let cfg1 : Config :=
          match jOpt with
          | some j =>
            let userPass := left.take j
            match indexOfChar ':' userPass with
            | some k =>
              { base with
                user := String.mk (userPass.take k)
                passwd := String.mk (userPass.drop (k + 1)) }
            | none => { base with user := String.mk userPass }
          | none => base
        let netStart := match jOpt with | some j => j + 1 | none => 0
        let netRegion := left.drop netStart
        match indexOfChar '(' netRegion with
        | some kRel =>
          if s.getD (i - 1) ' ' ≠ ')' then
            if (netRegion.drop (kRel + 1)).contains ')' then
              Except.error errInvalidDSNUnescaped
            else Except.error errInvalidDSNAddr
          else
            Except.ok { cfg1 with
              net := String.mk (netRegion.take kRel)
              addr := String.mk ((netRegion.drop (kRel + 1)).dropLast) }
        | none => Except.ok { cfg1 with net := String.mk netRegion }
      else Except.ok base
    match leftRes with
    | Except.error e => Except.error e
    | Except.ok cfg1 =>
      let right := s.drop (i + 1)
      match indexOfChar '?' right with
      | some j =>
        match parseDSNParams cfg1 (String.mk (right.drop (j + 1))) with
        | Except.error e => Except.error e
        | Except.ok cfg2 => finishDSN { cfg2 with dbName := String.mk (right.take j) }
      | none => finishDSN { cfg1 with dbName := String.mk right }

/-! ## Helper lemmas -/

theorem mk_toList (s : String) : String.mk s.toList = s := rfl

theorem toList_append (a b : String) : (a ++ b).toList = a.toList ++ b.toList := by
  simp [String.toList]

theorem toList_ne_nil (s : String) (h : s ≠ "") : s.toList ≠ [] := by
  intro hn
  exact h (by simpa using congrArg String.mk hn)

theorem indexOfChar_eq_none {c : Char} :
    ∀ {l : List Char}, c ∉ l → indexOfChar c l = none := by
  intro l
  induction l with
  | nil => intro _; rfl
  | cons x xs ih =>
    intro h
    simp only [List.mem_cons, not_or] at h
    simp only [indexOfChar]
    rw [if_neg (fun hxc => h.1 hxc.symm), ih h.2]
    rfl

theorem lastIndexOfChar_eq_none {c : Char} :
    ∀ {l : List Char}, c ∉ l → lastIndexOfChar c l = none := by
  intro l
  induction l with
  | nil => intro _; rfl
  | cons x xs ih =>
    intro h
    simp only [List.mem_cons, not_or] at h
    simp only [lastIndexOfChar, ih h.2]
    rw [if_neg (fun hxc => h.1 hxc.symm)]

theorem Close_closes (c : Conn) : (Close c).2.connOpen = false := by
  by_cases h : c.connOpen <;> simp [Close, h, cleanup]

theorem dropWhile_head_false (p : Char → Bool) :
    ∀ (l : List Char) (x : Char) (post : List Char),
      l.dropWhile p = x :: post → p x = false := by
  intro l
  induction l with
  | nil => intro x post h; simp [List.dropWhile] at h
  | cons a as ih =>
    intro x post h
    rw [List.dropWhile_cons] at h
    by_cases hp : p a
    · rw [if_pos hp] at h
      exact ih x post h
    · rw [if_neg hp] at h
      obtain ⟨rfl, -⟩ := List.cons.inj h
      simpa using hp

theorem count_takeWhile_q (l : List Char) :
    (l.takeWhile (fun ch => ch ≠ '?')).count '?' = 0 := by
  rw [List.count_eq_zero]
  intro hmem
  have := List.mem_takeWhile_imp hmem
  simp at this

theorem count_dropWhile_cons (l post : List Char) (x : Char)
    (h : l.dropWhile (fun ch => ch ≠ '?') = x :: post) :
    l.count '?' = post.count '?' + 1 := by
  have hx : x = '?' := by
    have hb := dropWhile_head_false (fun ch => ch ≠ '?') l x post h
    simpa using hb
  conv_lhs => rw [← List.takeWhile_append_dropWhile (fun ch => ch ≠ '?') l]
  rw [List.count_append, count_takeWhile_q, h, hx, List.count_cons_self]
  omega

/-- Behavior of the interpolation loop when every supplied argument is the
nil interface: nil substitutions always succeed (bypassing the size
check), so the outcome is decided purely by the placeholder/argument
count comparison. -/
theorem interpAux_all_null (st mpa : Nat) :
    ∀ (fuel : Nat) (qc : List Char) (args : List Val) (argPos : Nat)
      (buf : List Char),
      qc.length < fuel → (∀ a ∈ args, a = Val.null) → argPos ≤ args.length →
      (args.length < argPos + qc.count '?' →
        interpAuxF st mpa fuel qc args argPos buf =
          Except.error (GoError.panicked "runtime error: index out of range")) ∧
      (argPos + qc.count '?' < args.length →
        interpAuxF st mpa fuel qc args argPos buf =
          Except.error GoError.interpolateFailed) := by
  intro fuel
  induction fuel with
  | zero =>
    intro qc args argPos buf hf
    exact absurd hf (Nat.not_lt_zero _)
  | succ fuel ih =>
    intro qc args argPos buf hf hnull hle
    rcases hdw : qc.dropWhile (fun ch => ch ≠ '?') with - | ⟨x, post⟩
    · have hcnt : qc.count '?' = 0 := by
        conv_lhs => rw [← List.takeWhile_append_dropWhile (fun ch => ch ≠ '?') qc]
        rw [List.count_append, count_takeWhile_q, hdw]
        rfl
      constructor
      · intro habs
        exact absurd habs (by omega)
      · intro hlt
        simp only [interpAuxF, hdw]
        rw [if_pos (by omega)]
    · have hcnt := count_dropWhile_cons qc post x hdw
      have hpost : post.length < fuel := by
        have hs := (List.dropWhile_sublist (l := qc)
          (p := fun ch => ch ≠ '?')).length_le
        rw [hdw] at hs
        simp only [List.length_cons] at hs
        omega
      by_cases hargpos : argPos < args.length
      · obtain ⟨a, hga⟩ : ∃ a, args.get? argPos = some a := by
          rw [List.get?_eq_get hargpos]
          exact ⟨_, rfl⟩
        have ha : a = Val.null := hnull a (List.get?_mem hga)
        subst ha
        have IH := ih post args (argPos + 1)
          ((buf ++ qc.takeWhile (fun ch => ch ≠ '?')) ++ "NULL".toList)
          hpost hnull (by omega)
        constructor
        · intro h1
          have := IH.1 (by omega)
          simp only [interpAuxF, hdw, hga]
          exact this
        · intro h2
          have := IH.2 (by omega)
          simp only [interpAuxF, hdw, hga]
          exact this
      · have hget : args.get? argPos = none :=
          List.get?_eq_none.mpr (by omega)
        constructor
        · intro _
          simp only [interpAuxF, hdw, hget]
        · intro h2
          exact absurd h2 (by omega)

/-! ## Claim theorems -/

/-- C1 (code_bug): the claim says a strict-mode connection receiving an OK
packet with warnings = 3 issues SHOW WARNINGS and returns a Warnings error
with three entries, staying Ready. In the code, `getWarnings` invokes
`conn.Query("SHOW WARNINGS", nil)`; with Query's variadic signature this
passes one nil argument, so `interpolateParams` runs on a query with zero
placeholders and one argument and fails. The driver therefore returns
`ErrInterpolateFailed`, writes nothing to the transport (no SHOW WARNINGS
is ever sent), and produces no Warnings value; the connection stays open.
The OK packet below is `[0x00, affected=0, insertId=0, status=0x0002,
warnings=3]`. -/
theorem handleOkPacket_strict_warnings_bug :
    (handleOkPacket { strict := true } [0, 0, 0, 2, 0, 3, 0]).1 =
      some GoError.interpolateFailed ∧
    (handleOkPacket { strict := true } [0, 0, 0, 2, 0, 3, 0]).2.output = [] ∧
    (handleOkPacket { strict := true } [0, 0, 0, 2, 0, 3, 0]).2.connOpen = true :=
  ⟨rfl, rfl, rfl⟩

/-- C2 (counterexample): with fewer arguments than placeholders,
`interpolateParams` does not return InterpolationFailed: it reads
`args[argPos]` without a bounds check and panics. -/
theorem interpolateParams_missing_arg_panics :
    interpolateParams { } "SELECT ?, ?" [Val.null] =
      Except.error (GoError.panicked "runtime error: index out of range") :=
  rfl

/-- C2 (amended): for nil arguments (which every substitution accepts),
more arguments than placeholders yields the InterpolationFailed error,
while fewer arguments than placeholders is an out-of-range panic rather
than an error. -/
theorem interpolateParams_count_mismatch (c : Conn) (q : String)
    (args : List Val) (hbuf : c.bufFree = true)
    (hnull : ∀ a ∈ args, a = Val.null) :
    (q.toList.count '?' < args.length →
      interpolateParams c q args = Except.error GoError.interpolateFailed) ∧
    (args.length < q.toList.count '?' →
      interpolateParams c q args =
        Except.error (GoError.panicked "runtime error: index out of range")) := by
  have H := interpAux_all_null c.status c.maxPacketAllowed
    (q.toList.length + 1) q.toList args 0 [] (by omega) hnull (by omega)
  constructor
  · intro h
    have he := H.2 (by omega)
    simp only [interpolateParams, hbuf, if_true, he]
  · intro h
    have he := H.1 (by omega)
    simp only [interpolateParams, hbuf, if_true, he]

theorem interpolateParams_count_mismatch_witness :
    interpolateParams { } "SELECT ?" [Val.null, Val.null] =
      Except.error GoError.interpolateFailed :=
  (interpolateParams_count_mismatch { } "SELECT ?" [Val.null, Val.null] rfl
    (by intro a ha; fin_cases ha <;> rfl)).1 (by decide)

/-- C3: a payload longer than the negotiated maximum packet size makes
`writePacket` fail with PacketTooLarge before anything happens: the
returned connection is the input connection, so no frame bytes are
emitted and the sequence number is unchanged. -/
theorem writePacket_too_large (c : Conn) (p : List Nat)
    (h : c.maxPacketAllowed < p.length) :
    writePacket c p = (some GoError.pktTooLarge, c) := by
  unfold writePacket
  rw [if_pos h]

theorem writePacket_too_large_witness :
    writePacket { maxPacketAllowed := 0 } [7] =
      (some GoError.pktTooLarge, { maxPacketAllowed := 0 }) :=
  writePacket_too_large _ _ (by decide)

/-- C4 (code_bug): the empty payload has length a non-negative multiple of
2^24 - 1; `writePacket` emits exactly one zero-length frame for it
(header `[0, 0, 0, seq]`, no payload bytes) and advances the sequence
number, but `readPacket` on that very byte stream rejects the declared
length 0 as malformed and closes the connection instead of reassembling
the empty payload. The reader refuses the terminator frame its own writer
emits, so the round trip of the claim fails for every multiple of
2^24 - 1. -/
theorem writePacket_zero_frame_roundtrip_bug :
    (writePacket ({ } : Conn) []).1 = none ∧
    (writePacket ({ } : Conn) []).2.output = [0, 0, 0, 0] ∧
    (writePacket ({ } : Conn) []).2.sequence = 1 ∧
    (readPacket { input := [0, 0, 0, 0] }).1 = Except.error GoError.malformPkt ∧
    (readPacket { input := [0, 0, 0, 0] }).2.connOpen = false :=
  ⟨rfl, rfl, rfl, rfl, rfl⟩

/-- C8: decoding a binary-protocol LONGLONG cell reads 8 bytes
little-endian; with the UNSIGNED column flag and a value above 2^63 - 1
the cell becomes the base-10 byte string of the unsigned value, and in
every other case the signed 64-bit integer with the same encoding. -/
theorem binaryRows_convert_longlong (flags b0 b1 b2 b3 b4 b5 b6 b7 : Nat) :
    binaryConvert
      { columns := [{ fieldType := fieldTypeLongLong, flags := flags }]
        nullMask := [0]
        data := some [b0, b1, b2, b3, b4, b5, b6, b7] } [Val.null] =
      (none,
       [if flags &&& flagUnsigned ≠ 0 then
          if 9223372036854775807 < leUint [b0, b1, b2, b3, b4, b5, b6, b7] then
            Val.bytes (uint64ToString (leUint [b0, b1, b2, b3, b4, b5, b6, b7]))
          else Val.int (leUint [b0, b1, b2, b3, b4, b5, b6, b7] : Int)
        else Val.int (intOfUint 64 (leUint [b0, b1, b2, b3, b4, b5, b6, b7]))]) := by
  by_cases hu : flags &&& flagUnsigned = 0
  · simp [binaryConvert, binaryConvertAux, bytesAt, hu, fieldTypeLongLong,
      fieldTypeNULL, fieldTypeTiny, fieldTypeShort, fieldTypeYear,
      fieldTypeInt24, fieldTypeLong]
  · by_cases hbig : 9223372036854775807 < leUint [b0, b1, b2, b3, b4, b5, b6, b7]
    · simp [binaryConvert, binaryConvertAux, bytesAt, hu, hbig, fieldTypeLongLong,
        fieldTypeNULL, fieldTypeTiny, fieldTypeShort, fieldTypeYear,
        fieldTypeInt24, fieldTypeLong]
    · simp [binaryConvert, binaryConvertAux, bytesAt, hu, hbig, fieldTypeLongLong,
        fieldTypeNULL, fieldTypeTiny, fieldTypeShort, fieldTypeYear,
        fieldTypeInt24, fieldTypeLong]

/-- C10: when the row cursor is valid (no stored error, a current row) and
the number of destinations differs from the number of columns, `Scan`
(text and binary variants) still returns exactly the outcome of `convert`
on the given destinations: the count-mismatch error the source builds
with fmt.Errorf is discarded, never returned. -/
theorem scan_count_mismatch_ignored :
    (∀ (rows : TextRows) (d : List Nat) (dest : List Val),
      rows.err = none → rows.data = some d →
      dest.length ≠ rows.columns.length →
      textRowsScan rows dest =
        ((textConvert d dest).1, { rows with data := none },
         (textConvert d dest).2)) ∧
    (∀ (rows : BinRows) (d : List Nat) (dest : List Val),
      rows.err = none → rows.data = some d →
      dest.length ≠ rows.columns.length →
      binaryRowsScan rows dest =
        ((binaryConvert rows dest).1, { rows with data := none },
         (binaryConvert rows dest).2)) := by
  constructor
  · intro rows d dest herr hdata _
    simp [textRowsScan, herr, hdata]
  · intro rows d dest herr hdata _
    simp [binaryRowsScan, herr, hdata]

theorem scan_count_mismatch_ignored_witness :
    textRowsScan { columns := [{ }, { }, { }], data := some [2, 97, 98] }
        [Val.int 0] =
      (none, { columns := [{ }, { }, { }], data := none },
       [Val.bytes [97, 98]]) := by
  have h := scan_count_mismatch_ignored.1
    { columns := [{ }, { }, { }], data := some [2, 97, 98] }
    [2, 97, 98] [Val.int 0] rfl rfl (by decide)
  simpa using h

/-- C5: handling of one incoming frame whose 4-byte header is readable.
With declared length L = b0 + 256 b1 + 65536 b2 and sequence byte sq:
a declared length below 1 fails with MalformedPacket (and only then — the
remaining cases cover every L at least 1 and never produce it at this
frame); a sequence byte above the expected value fails with
PacketSyncMultiple and one below with PacketSync; otherwise the expected
sequence is incremented and the declared payload is read — directly for a
final frame, and continuing the reassembly loop for a frame of exactly
2^24 - 1 bytes. -/
theorem readPacket_frame_cases (c : Conn) (b0 b1 b2 sq : Nat)
    (rest : List Nat) (hin : c.input = b0 :: b1 :: b2 :: sq :: rest) :
    (b0 + 256 * b1 + 65536 * b2 = 0 →
      readPacket c =
        (Except.error GoError.malformPkt, (Close { c with input := rest }).2)) ∧
    (1 ≤ b0 + 256 * b1 + 65536 * b2 → c.sequence < sq →
      readPacket c = (Except.error GoError.pktSyncMul, { c with input := rest })) ∧
    (1 ≤ b0 + 256 * b1 + 65536 * b2 → sq < c.sequence →
      readPacket c = (Except.error GoError.pktSync, { c with input := rest })) ∧
    (1 ≤ b0 + 256 * b1 + 65536 * b2 → sq = c.sequence →
      rest.length < b0 + 256 * b1 + 65536 * b2 →
      readPacket c = (Except.error GoError.ioEOF,
        (Close { c with input := rest, sequence := (c.sequence + 1) % 256 }).2)) ∧
    (1 ≤ b0 + 256 * b1 + 65536 * b2 → sq = c.sequence →
      b0 + 256 * b1 + 65536 * b2 ≤ rest.length →
      b0 + 256 * b1 + 65536 * b2 < maxPacketSize →
      readPacket c = (Except.ok (rest.take (b0 + 256 * b1 + 65536 * b2)),
        { c with input := rest.drop (b0 + 256 * b1 + 65536 * b2),
                 sequence := (c.sequence + 1) % 256 })) ∧
    (1 ≤ b0 + 256 * b1 + 65536 * b2 → sq = c.sequence →
      b0 + 256 * b1 + 65536 * b2 ≤ rest.length →
      b0 + 256 * b1 + 65536 * b2 = maxPacketSize →
      readPacket c = readPacketAux (rest.length + 4)
        { c with input := rest.drop (b0 + 256 * b1 + 65536 * b2),
                 sequence := (c.sequence + 1) % 256 }
        (rest.take (b0 + 256 * b1 + 65536 * b2))) := by
  refine ⟨?_, ?_, ?_, ?_, ?_, ?_⟩
  · intro hL
    unfold readPacket
    rw [readPacketAux.eq_2, hin]
    simp only [List.length_cons, List.getD_cons_zero, List.getD_cons_succ,
      List.drop_succ_cons, List.drop_zero]
    rw [if_neg (by omega), if_pos (by omega)]
  · intro hL hsq
    unfold readPacket
    rw [readPacketAux.eq_2, hin]
    simp only [List.length_cons, List.getD_cons_zero, List.getD_cons_succ,
      List.drop_succ_cons, List.drop_zero]
    rw [if_neg (by omega), if_neg (by omega), if_pos (by omega : sq ≠ c.sequence),
      if_pos hsq]
  · intro hL hsq
    unfold readPacket
    rw [readPacketAux.eq_2, hin]
    simp only [List.length_cons, List.getD_cons_zero, List.getD_cons_succ,
      List.drop_succ_cons, List.drop_zero]
    rw [if_neg (by omega), if_neg (by omega), if_pos (by omega : sq ≠ c.sequence),
      if_neg (by omega)]
  · intro hL hsq hlen
    unfold readPacket
    rw [readPacketAux.eq_2, hin]
    simp only [List.length_cons, List.getD_cons_zero, List.getD_cons_succ,
      List.drop_succ_cons, List.drop_zero]
    rw [if_neg (by omega), if_neg (by omega), if_neg (by simp [hsq]), if_pos hlen]
  · intro hL hsq hlen hlast
    unfold readPacket
    rw [readPacketAux.eq_2, hin]
    simp only [List.length_cons, List.getD_cons_zero, List.getD_cons_succ,
      List.drop_succ_cons, List.drop_zero]
    rw [if_neg (by omega), if_neg (by omega), if_neg (by simp [hsq]),
      if_neg (by omega), if_pos hlast]
    simp
  · intro hL hsq hlen hlast
    unfold readPacket
    rw [readPacketAux.eq_2, hin]
    simp only [List.length_cons, List.getD_cons_zero, List.getD_cons_succ,
      List.drop_succ_cons, List.drop_zero]
    rw [if_neg (by omega), if_neg (by omega), if_neg (by simp [hsq]),
      if_neg (by omega), if_neg (by omega)]
    simp

theorem readPacket_frame_cases_witness :
    readPacket { input := [1, 0, 0, 0, 5] } =
      (Except.ok [5], { input := [], sequence := 1 }) := by
  have h := (readPacket_frame_cases { input := [1, 0, 0, 0, 5] } 1 0 0 0 [5]
    rfl).2.2.2.2.1 (by decide) rfl (by decide) (by decide)
  simpa using h

/-- C6 (counterexample): a sequence-mismatch error does not close the
connection. With expected sequence 0 and a frame carrying sequence byte 7,
`readPacket` returns PacketSyncMultiple while the transport stays attached
(`connOpen` is still true), contradicting the claim that every
packet-sync error closes the connection before returning. -/
theorem readPacket_sync_error_leaves_conn_open :
    (readPacket { input := [1, 0, 0, 7, 9] }).1 = Except.error GoError.pktSyncMul ∧
    (readPacket { input := [1, 0, 0, 7, 9] }).2.connOpen = true :=
  ⟨rfl, rfl⟩

/-- C6 (amended): transport read failures (header or body) and malformed
declared lengths close the connection before the error is returned, and a
closed connection makes subsequent operations fail with InvalidConnection;
but a sequence-mismatch error returns with the connection state intact
apart from the consumed header (in particular it is NOT closed). -/
theorem readPacket_close_policy :
    (∀ c : Conn, c.input.length < 4 → (readPacket c).2.connOpen = false) ∧
    (∀ (c : Conn) (b0 b1 b2 sq : Nat) (rest : List Nat),
      c.input = b0 :: b1 :: b2 :: sq :: rest →
      b0 + 256 * b1 + 65536 * b2 = 0 → (readPacket c).2.connOpen = false) ∧
    (∀ (c : Conn) (b0 b1 b2 sq : Nat) (rest : List Nat),
      c.input = b0 :: b1 :: b2 :: sq :: rest →
      1 ≤ b0 + 256 * b1 + 65536 * b2 → sq = c.sequence →
      rest.length < b0 + 256 * b1 + 65536 * b2 →
      (readPacket c).2.connOpen = false) ∧
    (∀ (c : Conn) (b0 b1 b2 sq : Nat) (rest : List Nat),
      c.input = b0 :: b1 :: b2 :: sq :: rest →
      1 ≤ b0 + 256 * b1 + 65536 * b2 → sq ≠ c.sequence →
      (readPacket c).2 = { c with input := rest }) ∧
    (∀ (c : Conn) (q : String) (args : List Val), c.connOpen = false →
      Query c q args = (Except.error GoError.invalidConn, c)) := by
  refine ⟨?_, ?_, ?_, ?_, ?_⟩
  · intro c h
    unfold readPacket
    rw [readPacketAux.eq_2, if_pos h]
    exact Close_closes c
  · intro c b0 b1 b2 sq rest hin hL
    rw [(readPacket_frame_cases c b0 b1 b2 sq rest hin).1 hL]
    exact Close_closes _
  · intro c b0 b1 b2 sq rest hin hL hsq hlen
    rw [(readPacket_frame_cases c b0 b1 b2 sq rest hin).2.2.2.1 hL hsq hlen]
    exact Close_closes _
  · intro c b0 b1 b2 sq rest hin hL hsq
    rcases Nat.lt_or_ge c.sequence sq with hlt | hge
    · rw [(readPacket_frame_cases c b0 b1 b2 sq rest hin).2.1 hL hlt]
    · have hlt : sq < c.sequence := by omega
      rw [(readPacket_frame_cases c b0 b1 b2 sq rest hin).2.2.1 hL hlt]
  · intro c q args h
    unfold Query
    rw [show fuelFor c = c.input.length + 15 + 1 from rfl, queryF.eq_2, h]
    simp

theorem readPacket_close_policy_witness :
    Query { connOpen := false } "SELECT 1" [] =
      (Except.error GoError.invalidConn, { connOpen := false }) :=
  readPacket_close_policy.2.2.2.2 { connOpen := false } "SELECT 1" [] rfl

/-- C7 (counterexample): the empty DSN contains no slash, yet `ParseDSN`
accepts it: the backward scan never runs, the missing-slash guard demands
a nonempty string, and the defaults are applied. This contradicts the
claim that every DSN without a slash is an invalid-DSN error. -/
theorem ParseDSN_empty_accepted :
    ParseDSN "" = Except.ok { net := "tcp", addr := "127.0.0.1:3306" } :=
  rfl

/-- C7 (amended): every NONEMPTY DSN without a slash is rejected with the
invalid-DSN error; for accepted DSNs the network defaults to tcp when
absent and the address defaults to 127.0.0.1:3306 for tcp and
/tmp/mysql.sock for unix when absent. -/
theorem ParseDSN_slash_and_defaults :
    (∀ dsn : String, dsn ≠ "" → '/' ∉ dsn.toList →
      ParseDSN dsn = Except.error errInvalidDSNNoSlash) ∧
    (∀ db : String, '/' ∉ db.toList → '?' ∉ db.toList →
      ParseDSN ("/" ++ db) =
        Except.ok { net := "tcp", addr := "127.0.0.1:3306", dbName := db }) ∧
    (∀ db : String, '/' ∉ db.toList → '?' ∉ db.toList →
      ParseDSN ("unix/" ++ db) =
        Except.ok { net := "unix", addr := "/tmp/mysql.sock", dbName := db }) := by
  refine ⟨?_, ?_, ?_⟩
  · intro dsn hne hmem
    simp only [ParseDSN, lastIndexOfChar_eq_none hmem]
    rw [if_pos (List.length_pos.mpr (toList_ne_nil dsn hne))]
  · intro db h1 h2
    have htl : ("/" ++ db).toList = '/' :: db.toList := by
      rw [toList_append]; rfl
    have h1d : lastIndexOfChar '/' db.data = none := lastIndexOfChar_eq_none h1
    have h2d : indexOfChar '?' db.data = none := indexOfChar_eq_none h2
    simp only [ParseDSN, htl]
    simp [lastIndexOfChar, h1d, h2d, finishDSN, unsafeCollations,
      defaultCollation, mk_toList]
  · intro db h1 h2
    have htl : ("unix/" ++ db).toList = 'u' :: 'n' :: 'i' :: 'x' :: '/' :: db.toList := by
      rw [toList_append]; rfl
    have h1d : lastIndexOfChar '/' db.data = none := lastIndexOfChar_eq_none h1
    have h2d : indexOfChar '?' db.data = none := indexOfChar_eq_none h2
    simp only [ParseDSN, htl]
    simp [lastIndexOfChar, h1d, h2d, indexOfChar, finishDSN, unsafeCollations,
      defaultCollation, mk_toList]

theorem ParseDSN_slash_and_defaults_witness :
    ParseDSN "testdsn" = Except.error errInvalidDSNNoSlash :=
  ParseDSN_slash_and_defaults.1 "testdsn" (by decide) (by decide)

/-- C9: when the auth result is an EOF packet naming plugin
mysql_old_password (the 20-byte payload below, framed with the expected
sequence number): with AllowOldPasswords false the connection attempt
surfaces the OldPassword error (and nothing is written); with it true the
driver writes one packet whose payload is the scrambled old password
followed by a terminating NUL byte (frame `17 0 0 seq+1` below) and awaits
the following OK/ERR result on the remaining stream. -/
theorem handleAuthResult_old_password (c : Conn) (cipher : List Nat)
    (cfg : Config) (rest : List Nat)
    (hcfg : c.cfg = some cfg)
    (hbuf : c.bufFree = true)
    (hmax : c.maxPacketAllowed = maxPacketSize)
    (hin : c.input =
      20 :: 0 :: 0 :: c.sequence ::
        (iEOF :: (strBytes "mysql_old_password" ++ [0])) ++ rest) :
    (cfg.allowOldPasswords = false →
      handleAuthResult c cipher =
        (some GoError.oldPassword,
         { c with input := rest, sequence := (c.sequence + 1) % 256 })) ∧
    (cfg.allowOldPasswords = true →
      handleAuthResult c cipher =
        readResultOK { c with
          input := rest
          sequence := (c.sequence + 2) % 256
          output := c.output ++ 17 :: 0 :: 0 :: (c.sequence + 1) % 256 ::
            (scrambleOldPassword cipher (strBytes cfg.passwd) ++ [0]) }) := by
  have hpay : (iEOF :: (strBytes "mysql_old_password" ++ [0])).length = 20 := rfl
  have hsb : (strBytes "mysql_old_password").length = 18 := rfl
  have hread := (readPacket_frame_cases c 20 0 0 c.sequence
    ((iEOF :: (strBytes "mysql_old_password" ++ [0])) ++ rest) hin).2.2.2.2.1
    (by decide) rfl
    (by simp [List.length_append, hsb]; omega) (by decide)
  rw [show 20 + 256 * 0 + 65536 * 0 = 20 from rfl] at hread
  rw [List.take_left' hpay, List.drop_left' hpay] at hread
  have hrro : readResultOK c =
      (some GoError.oldPassword,
       { c with input := rest, sequence := (c.sequence + 1) % 256 }) := by
    simp only [readResultOK, hread]
    simp +decide [indexOfByte, strBytes, iEOF, iOK]
  have hsl16 : (scrambleOldPassword cipher (strBytes cfg.passwd)).length = 16 := by
    simp [scrambleOldPassword]
  have hm1 : (c.sequence + 1) % 256 % 256 = (c.sequence + 1) % 256 := by omega
  have hm2 : ((c.sequence + 1) % 256 + 1) % 256 = (c.sequence + 2) % 256 := by omega
  constructor
  · intro hallow
    simp only [handleAuthResult, hrro]
    simp +decide [hcfg, hallow]
  · intro hallow
    simp only [handleAuthResult, hrro]
    simp only [writeOldAuthPacket, writePacket, writeFrames]
    simp +decide [hcfg, hallow, hbuf, hmax, writeFramesF, hsl16, hm1, hm2]

theorem handleAuthResult_old_password_witness :
    handleAuthResult
      { input := 20 :: 0 :: 0 :: 0 ::
          (iEOF :: (strBytes "mysql_old_password" ++ [0])) ++ []
        cfg := some { allowOldPasswords := false } } [1, 2, 3] =
      (some GoError.oldPassword,
       { input := []
         sequence := 1
         cfg := some { allowOldPasswords := false } }) := by
  have h := (handleAuthResult_old_password
    { input := 20 :: 0 :: 0 :: 0 ::
        (iEOF :: (strBytes "mysql_old_password" ++ [0])) ++ []
      cfg := some { allowOldPasswords := false } }
    [1, 2, 3] { allowOldPasswords := false } [] rfl rfl rfl rfl).1 rfl
  simpa using h

end Gmysql
